import Mathlib

/-!
# Verification of the retire-server session store and chat pipeline

Shallow embedding of the Python sources under `src/` (session store,
topic ledger, conversation window manager, turn execution pipeline,
completeness monitor) together with proofs of the specification's
claims about them.

Conventions of the embedding:
* the on-disk state of the store (`src/tools/lib/session_store.py`) is a
  pure `StoreState` value; each Python method becomes a function from
  `StoreState` to a result, stateful methods returning the updated state;
* a raised Python exception becomes the `Except.error` constructor of the
  result; the caller's disk state is then untouched, captured by the
  `stateAfterOp` / `stateAfterPair` helpers;
* nondeterministic inputs (`datetime.now`, `uuid`) are threaded as
  explicit parameters;
* text whose length matters (tool-result summaries) is modelled as
  `List Char`, other strings as `String`.
-/

namespace RetireServer

/-- `ConversationEntry`: one element of `history.json`
(`{role, content, timestamp}`). -/
structure HistEntry where
  role : String
  content : String
  timestamp : String
deriving DecidableEq, Repr

/-- One element of the metadata `errors` list
(`{"timestamp": ..., "message": ...}` in `chat_cli.execute_turn`). -/
structure ErrorEntry where
  timestamp : String
  message : String
deriving DecidableEq, Repr

/-- Token usage counters (`coerce_usage_counts` output). -/
structure Usage where
  input_tokens : Option Int
  output_tokens : Option Int
  total_tokens : Option Int
deriving DecidableEq, Repr

/-- One element of the metadata `turns` list
(`chat_cli.record_turn_metadata`). -/
structure TurnRecord where
  timestamp : String
  user : String
  assistant : String
  stop_reason : String
  usage : Option Usage
deriving DecidableEq, Repr

/-- The per-session `metadata.json` record-set, restricted to the fields
the pipeline writes (`errors`, `turns`, `last_response`,
`last_stop_reason`); Python stores them in a free-form dict with these
keys. -/
structure Metadata where
  errors : List ErrorEntry := []
  turns : List TurnRecord := []
  last_response : Option String := none
  last_stop_reason : Option String := none
deriving DecidableEq, Repr

/-- `SessionRecord` from `session_store.py`: one entry of
`sessions/index.json`. -/
structure SessionRecord where
  id : String
  created_at : String
  description : Option String := none
  is_current : Bool := false
deriving DecidableEq, Repr

/-- A validated score entry of a completeness snapshot
(`{"topic": ..., "score": ..., "reason": ...}`). -/
structure ScoreEntry where
  topic : String
  score : Int
  reason : Option String
deriving DecidableEq, Repr

/-- `CompletenessSnapshot` from `completeness_common.py`: one line of
`completeness.jsonl`. -/
structure CompletenessSnapshot where
  session_id : String
  scores : List ScoreEntry
  created_at : String
deriving DecidableEq, Repr

/-- `InformationRecord` from `completeness_common.py`: one line of
`information.jsonl`.  Confidence is a rational, modelling the Python
float's exact comparisons in the ranges used here. -/
structure InformationRecord where
  session_id : String
  topic : String
  value : String
  subtopic : Option String
  fact_type : Option String
  confidence : ℚ
  created_at : String
deriving DecidableEq, Repr

/-- One line of a per-session `*.jsonl` file: either an information
record or a completeness snapshot. -/
inductive Payload where
  | info : InformationRecord → Payload
  | snap : CompletenessSnapshot → Payload
deriving DecidableEq, Repr

/-- Error taxonomy: `notFound` is `SessionNotFoundError`, `storeError`
is the base `SessionStoreError`, `validation` is `ValueError`. -/
inductive Err where
  | notFound : String → Err
  | storeError : String → Err
  | validation : String → Err
deriving DecidableEq, Repr

/-- Association-list lookup keyed by a decidable type (files on disk
keyed by session id / filename). -/
def lookupA {κ β : Type} [DecidableEq κ] : List (κ × β) → κ → Option β
  | [], _ => none
  | (k, v) :: rest, key => if k = key then some v else lookupA rest key

/-- Association-list update: replace the value at the key if present,
else append a fresh pair (a whole-document file write). -/
def setA {κ β : Type} [DecidableEq κ] (l : List (κ × β)) (key : κ) (v : β) :
    List (κ × β) :=
  if l.any (fun p => p.1 = key) then
    l.map (fun p => if p.1 = key then (key, v) else p)
  else l ++ [(key, v)]

/-- On-disk state of one `SessionStore` root: the session directories
that exist, the parsed `index.json`, and the per-session documents
(`history.json`, `metadata.json`, `<name>.jsonl`). -/
structure StoreState where
  dirs : List String
  index : List SessionRecord
  histories : List (String × List HistEntry)
  metadatas : List (String × Metadata)
  jsonl : List ((String × String) × List Payload)
deriving DecidableEq, Repr

/-- `SessionStore.session_exists`: checks the durable layout (the
session directory) directly. -/
def session_exists (st : StoreState) (sid : String) : Bool :=
  st.dirs.contains sid

/-- `SessionStore.list_sessions`: reads the index. -/
def list_sessions (st : StoreState) : List SessionRecord :=
  st.index

/-- `SessionStore.mark_current`: sets `is_current` on every index record
to whether its id matches, raises `SessionNotFoundError` when no record
matched (the index file is then not rewritten). -/
def mark_current (st : StoreState) (sid : String) : Except Err StoreState :=
  if st.index.any (fun r => r.id = sid) then
    .ok { st with index := st.index.map (fun r => { r with is_current := r.id = sid }) }
  else
    .error (.notFound ("Session " ++ sid ++ " not found"))

/-- `SessionStore.update_description`: updates the first matching index
record, raises `SessionNotFoundError` when none matched. -/
def updateFirstDescription : List SessionRecord → String → String → List SessionRecord
  | [], _, _ => []
  | r :: rest, sid, d =>
    if r.id = sid then { r with description := some d } :: rest
    else r :: updateFirstDescription rest sid d

/-- `SessionStore.update_description` (see `updateFirstDescription`). -/
def update_description (st : StoreState) (sid d : String) : Except Err StoreState :=
  if st.index.any (fun r => r.id = sid) then
    .ok { st with index := updateFirstDescription st.index sid d }
  else
    .error (.notFound ("Session " ++ sid ++ " not found"))

/-- `SessionStore.delete_session`: `shutil.rmtree` of the session
directory (removing every document under it) then the index entry is
filtered out; raises `SessionNotFoundError` when the directory is
absent. -/
def delete_session (st : StoreState) (sid : String) : Except Err StoreState :=
  if st.dirs.contains sid then
    .ok { dirs := st.dirs.filter (fun d => d ≠ sid),
          index := st.index.filter (fun r => r.id ≠ sid),
          histories := st.histories.filter (fun p => p.1 ≠ sid),
          metadatas := st.metadatas.filter (fun p => p.1 ≠ sid),
          jsonl := st.jsonl.filter (fun p => p.1.1 ≠ sid) }
  else
    .error (.notFound ("Session " ++ sid ++ " not found"))

/-- `SessionStore.read_history` via `_read_json_file`: a missing
`history.json` raises the base `SessionStoreError`
("Expected file missing"), not `SessionNotFoundError`. -/
def read_history (st : StoreState) (sid : String) : Except Err (List HistEntry) :=
  match lookupA st.histories sid with
  | some h => .ok h
  | none => .error (.storeError ("Expected file missing: " ++ sid ++ "/history.json"))

/-- `SessionStore.write_history` via `_write_json_file`:
`path.parent.mkdir(parents=True, exist_ok=True)` silently creates the
session directory when absent, then replaces the whole document. -/
def write_history (st : StoreState) (sid : String) (h : List HistEntry) : StoreState :=
  { st with
    dirs := if st.dirs.contains sid then st.dirs else st.dirs ++ [sid],
    histories := setA st.histories sid h }

/-- `SessionStore.read_metadata` via `_read_json_file` (missing file
raises the base `SessionStoreError`). -/
def read_metadata (st : StoreState) (sid : String) : Except Err Metadata :=
  match lookupA st.metadatas sid with
  | some m => .ok m
  | none => .error (.storeError ("Expected file missing: " ++ sid ++ "/metadata.json"))

/-- `SessionStore.write_metadata` via `_write_json_file` (creates the
directory when absent, replaces the whole document). -/
def write_metadata (st : StoreState) (sid : String) (m : Metadata) : StoreState :=
  { st with
    dirs := if st.dirs.contains sid then st.dirs else st.dirs ++ [sid],
    metadatas := setA st.metadatas sid m }

/-- `SessionStore.append_jsonl`: `target_file.parent.mkdir(parents=True,
exist_ok=True)` creates the session directory when absent, then appends
one line; performs no existence check of its own. -/
def append_jsonl (st : StoreState) (sid fname : String) (payload : Payload) : StoreState :=
  { st with
    dirs := if st.dirs.contains sid then st.dirs else st.dirs ++ [sid],
    jsonl := setA st.jsonl (sid, fname)
      (((lookupA st.jsonl (sid, fname)).getD []) ++ [payload]) }

/-- `SessionStore.read_jsonl`: returns `[]` when the file does not
exist; performs no session-existence check and never raises for an
absent session. -/
def read_jsonl (st : StoreState) (sid fname : String) : List Payload :=
  (lookupA st.jsonl (sid, fname)).getD []

/-- State the caller's disk is left in by an operation returning
`Except Err StoreState`: an exception leaves it untouched. -/
def stateAfterOp (st : StoreState) : Except Err StoreState → StoreState
  | .error _ => st
  | .ok st' => st'

/-- State the caller's disk is left in by an operation returning a value
together with the new state: an exception leaves it untouched. -/
def stateAfterPair {α : Type} (st : StoreState) : Except Err (α × StoreState) → StoreState
  | .error _ => st
  | .ok (_, st') => st'

/-- `True` exactly on `Except.error (Err.notFound _)`
(a `SessionNotFoundError` escape). -/
def isNotFoundErr {β : Type} : Except Err β → Bool
  | .error (.notFound _) => true
  | _ => false

/-- `True` exactly on `Except.error (Err.validation _)`
(a `ValueError` escape). -/
def isValidationErr {β : Type} : Except Err β → Bool
  | .error (.validation _) => true
  | _ => false

/-- `True` exactly on `Except.error (Err.storeError _)` (the base
`SessionStoreError`, which an `except SessionNotFoundError` handler
would not catch). -/
def isBaseStoreErr {β : Type} : Except Err β → Bool
  | .error (.storeError _) => true
  | _ => false

/-- `True` exactly on `Except.ok` (the operation did not raise). -/
def isOkE {β : Type} : Except Err β → Bool
  | .ok _ => true
  | .error _ => false

/-- A session id fully absent from the store: no directory, no index
entry, no documents (the state every id starts in before `create`). -/
def sessionAbsent (st : StoreState) (sid : String) : Prop :=
  st.dirs.contains sid = false ∧
  st.index.all (fun r => r.id ≠ sid) = true ∧
  lookupA st.histories sid = none ∧
  lookupA st.metadatas sid = none ∧
  st.jsonl.all (fun p => p.1.1 ≠ sid) = true

instance (st : StoreState) (sid : String) : Decidable (sessionAbsent st sid) := by
  unfold sessionAbsent; infer_instance

/-!
## Conversation Window Manager
(`SlidingWindowConversationManager.prepare_messages`,
`src/agents/chat/runtime.py`)
-/

/-- `prepare_messages`: empty history gives `[]`; a non-positive window
returns the history unchanged; otherwise Python takes
`history[-window_size:]` and returns it only when
`should_truncate_results` is set, else the full history. -/
def prepare_messages {α : Type} (window_size : Int) (should_truncate_results : Bool)
    (history : List α) : List α :=
  if history.isEmpty then []
  else if window_size ≤ 0 then history
  else
    let trimmed := history.drop (history.length - window_size.toNat)
    if should_truncate_results = false then history
    else trimmed

/-!
## Topic Ledger (`src/agents/tools/completeness_common.py`)
-/

/-- `CANONICAL_TOPICS`: the fixed 8-item topic enumeration. -/
def CANONICAL_TOPICS : List String :=
  ["income_cash_flow", "healthcare_medicare", "housing_geography",
   "tax_efficiency_rmds", "longevity_inflation", "long_term_care",
   "lifestyle_purpose", "estate_planning"]

/-- `INFORMATION_FILENAME`. -/
def INFORMATION_FILENAME : String := "information.jsonl"

/-- `COMPLETENESS_FILENAME`. -/
def COMPLETENESS_FILENAME : String := "completeness.jsonl"

/-- `validate_topic`: raises `ValueError` on a non-canonical topic. -/
def validate_topic (topic : String) : Except Err String :=
  if CANONICAL_TOPICS.contains topic then .ok topic
  else .error (.validation ("Invalid topic " ++ topic))

/-- `completeness_common._append_jsonl`: the ledger-layer wrapper that
checks `store.session_exists` first, raising `SessionNotFoundError`,
then delegates to `SessionStore.append_jsonl`. -/
def ledgerAppendJsonl (st : StoreState) (sid fname : String) (payload : Payload) :
    Except Err StoreState :=
  if session_exists st sid then .ok (append_jsonl st sid fname payload)
  else .error (.notFound ("Session " ++ sid ++ " not found"))

/-- `completeness_common._read_jsonl`: the ledger-layer wrapper that
checks `store.session_exists` first, raising `SessionNotFoundError`,
then delegates to `SessionStore.read_jsonl`. -/
def ledgerReadJsonl (st : StoreState) (sid fname : String) :
    Except Err (List Payload) :=
  if session_exists st sid then .ok (read_jsonl st sid fname)
  else .error (.notFound ("Session " ++ sid ++ " not found"))

/-- `append_information_record`: validates the topic (building the
record raises before any write), then appends through the existence
check; note there is no confidence-range check here. -/
def append_information_record (st : StoreState) (sid topic value : String)
    (subtopic fact_type : Option String) (confidence : ℚ) (ts : String) :
    Except Err (InformationRecord × StoreState) :=
  match validate_topic topic with
  | .error e => .error e
  | .ok t =>
    let record : InformationRecord :=
      { session_id := sid, topic := t, value := value, subtopic := subtopic,
        fact_type := fact_type, confidence := confidence, created_at := ts }
    match ledgerAppendJsonl st sid INFORMATION_FILENAME (.info record) with
    | .error e => .error e
    | .ok st' => .ok (record, st')

/-- The score of a raw batch entry as received by
`append_completeness_snapshot`: either genuinely an `int` or some other
JSON value (the `isinstance(score, int)` check). -/
inductive ScoreVal where
  | int : Int → ScoreVal
  | notInt : ScoreVal
deriving DecidableEq, Repr

/-- One raw entry of a completeness batch before validation. -/
structure RawScoreEntry where
  topic : String
  score : ScoreVal
  reason : Option String
deriving DecidableEq, Repr

/-- Per-entry validation step of `append_completeness_snapshot`: topic
canonical first, then `isinstance(score, int)` and `0 <= score <= 100`. -/
def validateEntry (e : RawScoreEntry) : Except Err ScoreEntry :=
  match validate_topic e.topic with
  | .error err => .error err
  | .ok t =>
    match e.score with
    | .int n =>
      if 0 ≤ n ∧ n ≤ 100 then .ok { topic := t, score := n, reason := e.reason }
      else .error (.validation ("Score for topic " ++ t ++ " out of range"))
    | .notInt => .error (.validation ("Score for topic " ++ t ++ " not an integer"))

/-- Whether a raw batch entry passes `validateEntry`. -/
def entryValid (e : RawScoreEntry) : Bool :=
  CANONICAL_TOPICS.contains e.topic &&
    match e.score with
    | .int n => decide (0 ≤ n ∧ n ≤ 100)
    | .notInt => false

/-- The validated form of a raw entry (what `validateEntry` returns when
the entry is valid). -/
def normalizeEntry (e : RawScoreEntry) : ScoreEntry :=
  { topic := e.topic,
    score := match e.score with | .int n => n | .notInt => 0,
    reason := e.reason }

/-- The validation loop of `append_completeness_snapshot`: entries are
checked in order and the first invalid one raises. -/
def validateAll : List RawScoreEntry → Except Err (List ScoreEntry)
  | [] => .ok []
  | e :: rest =>
    match validateEntry e with
    | .error err => .error err
    | .ok v =>
      match validateAll rest with
      | .error err => .error err
      | .ok vs => .ok (v :: vs)

/-- `append_completeness_snapshot`: validates every entry in order
(first failure raises, so nothing is written), then appends exactly one
snapshot with all validated entries through the existence check. -/
def append_completeness_snapshot (st : StoreState) (sid : String)
    (scores : List RawScoreEntry) (ts : String) :
    Except Err (CompletenessSnapshot × StoreState) :=
  match validateAll scores with
  | .error e => .error e
  | .ok validated =>
    let snapshot : CompletenessSnapshot :=
      { session_id := sid, scores := validated, created_at := ts }
    match ledgerAppendJsonl st sid COMPLETENESS_FILENAME (.snap snapshot) with
    | .error e => .error e
    | .ok st' => .ok (snapshot, st')

/-- `read_completeness_snapshots` reads the raw lines of
`completeness.jsonl` through the existence check. -/
def read_completeness_snapshots (st : StoreState) (sid : String) :
    Except Err (List Payload) :=
  ledgerReadJsonl st sid COMPLETENESS_FILENAME

/-!
## Completeness monitor (`src/tools/lib/completeness_monitor.py`)
-/

/-- `snapshot.get("scores", [])` on a parsed jsonl line: an information
record has no `scores` key, so it contributes the empty list. -/
def scoresOf : Payload → List ScoreEntry
  | .snap s => s.scores
  | .info _ => []

/-- The `latest` accumulator of `compute_latest_scores`, initialised
with every canonical topic mapped to `None`. -/
def initLatest : List (String × Option ScoreEntry) :=
  CANONICAL_TOPICS.map (fun t => (t, none))

/-- One entry step of `compute_latest_scores`: `if topic in latest`
(the keys are exactly the canonical topics) the entry overwrites the
topic's slot.  Scores read back are typed integers in this embedding, so
the `isinstance(score, int)` guard is identically true. -/
def applyEntry (latest : List (String × Option ScoreEntry)) (e : ScoreEntry) :
    List (String × Option ScoreEntry) :=
  if CANONICAL_TOPICS.contains e.topic then
    latest.map (fun p => if p.1 = e.topic then (p.1, some e) else p)
  else latest

/-- One snapshot step of `compute_latest_scores`. -/
def applySnapshot (latest : List (String × Option ScoreEntry)) (p : Payload) :
    List (String × Option ScoreEntry) :=
  (scoresOf p).foldl applyEntry latest

/-- `compute_latest_scores`: the most recent entry per canonical topic
across all snapshots in append order (later entries win). -/
def compute_latest_scores (payloads : List Payload) :
    List (String × Option ScoreEntry) :=
  payloads.foldl applySnapshot initLatest

/-!
## Turn Execution Pipeline (`src/tools/lib/chat_cli.py`)
-/

/-- A content block of a model reply message. -/
inductive MsgBlock where
  | text : String → MsgBlock
  | other : MsgBlock
deriving DecidableEq, Repr

/-- `extract_text_from_message`: concatenate the text blocks joined by
line breaks, then `strip()`. -/
def extract_text_from_message (message : List MsgBlock) : String :=
  (String.intercalate "\n"
    (message.filterMap (fun b => match b with | .text s => some s | .other => none))).trim

/-- The structured reply of one model invocation (`result.message`
content blocks, `result.stop_reason`, accumulated usage). -/
structure AgentResult where
  message : List MsgBlock
  stop_reason : String
  usage : Option Usage
deriving DecidableEq, Repr

/-- Outcome of calling the agent: a structured reply, or the exception
`execute_turn` catches. -/
inductive AgentOutcome where
  | ok : AgentResult → AgentOutcome
  | fail : String → AgentOutcome
deriving DecidableEq, Repr

/-- `record_turn_metadata`: folds the turn into the metadata `turns`
log and updates `last_response` / `last_stop_reason`. -/
def record_turn_metadata (metadata : Metadata) (result : AgentResult)
    (userEntry assistantEntry : HistEntry) : Metadata :=
  { metadata with
    turns := metadata.turns ++
      [{ timestamp := assistantEntry.timestamp, user := userEntry.content,
         assistant := assistantEntry.content, stop_reason := result.stop_reason,
         usage := result.usage }],
    last_response := some assistantEntry.content,
    last_stop_reason := some result.stop_reason }

/-- `append_history_entry`: appends to the in-memory history and
persists the whole document. -/
def append_history_entry (st : StoreState) (sid : String) (history : List HistEntry)
    (role content ts : String) : HistEntry × List HistEntry × StoreState :=
  let entry : HistEntry := { role := role, content := content, timestamp := ts }
  let history' := history ++ [entry]
  (entry, history', write_history st sid history')

/-- Store interactions of one turn, in execution order (used to state
that the user entry is persisted before the model is invoked). -/
inductive TurnOp where
  | wroteHistory : List HistEntry → TurnOp
  | invokedModel : String → TurnOp
  | wroteMetadata : Metadata → TurnOp
deriving DecidableEq, Repr

/-- Result of `execute_turn`: returned response (None on failure),
final store, in-memory history and metadata, and the ordered trace of
store/model interactions. -/
structure TurnResult where
  response : Option String
  store : StoreState
  history : List HistEntry
  metadata : Metadata
  trace : List TurnOp
deriving DecidableEq, Repr

/-- `execute_turn`: append and persist the user entry, invoke the
agent; on failure append a timestamped message (the user entry's
timestamp) to the metadata error log, persist metadata and return no
result; on success build the response text (placeholder when no text
block), append/persist the assistant entry, fold the turn metadata and
persist it.  Timestamps `ts1` (user entry) and `ts2` (assistant entry)
are threaded explicitly. -/
def execute_turn (agent : String → AgentOutcome) (st : StoreState) (sid : String)
    (history : List HistEntry) (metadata : Metadata) (userInput : String)
    (ts1 ts2 : String) : TurnResult :=
  let userEntry : HistEntry := { role := "user", content := userInput, timestamp := ts1 }
  let history1 := history ++ [userEntry]
  let st1 := write_history st sid history1
  match agent userInput with
  | .fail msg =>
    let metadata1 := { metadata with
      errors := metadata.errors ++ [{ timestamp := ts1, message := msg }] }
    let st2 := write_metadata st1 sid metadata1
    { response := none, store := st2, history := history1, metadata := metadata1,
      trace := [.wroteHistory history1, .invokedModel userInput, .wroteMetadata metadata1] }
  | .ok result =>
    let extracted := extract_text_from_message result.message
    let responseText := if extracted = "" then "[No response]" else extracted
    let assistantEntry : HistEntry :=
      { role := "assistant", content := responseText, timestamp := ts2 }
    let history2 := history1 ++ [assistantEntry]
    let st2 := write_history st1 sid history2
    let metadata1 := record_turn_metadata metadata result userEntry assistantEntry
    let st3 := write_metadata st2 sid metadata1
    { response := some responseText, store := st3, history := history2,
      metadata := metadata1,
      trace := [.wroteHistory history1, .invokedModel userInput,
                .wroteHistory history2, .wroteMetadata metadata1] }

/-!
## Tool-call telemetry extraction

Modelled from the spec: `collect_tool_events_from_messages` is not
present under `src/` (only its tests are).  Spec §4.4: the extraction
"scans the reply for tool-invocation and tool-result blocks, correlates
pairs by a shared invocation identifier, and for each correlated pair
emits an event: tool name, input arguments, result status, and a result
summary formed by concatenating the result's text blocks then
truncating to 200 characters plus an ellipsis marker if longer.
Invocations with no matching result are dropped."  The ellipsis marker
is three characters (the tests bound the summary by 203 = 200 +
ellipsis).  Result text is modelled as `List Char` so character counts
are literal.
-/

/-- A content block inside a tool result. -/
inductive RContent where
  | text : List Char → RContent
  | other : RContent
deriving DecidableEq, Repr

/-- A content block of a reply message as seen by the telemetry scan. -/
inductive ChatBlock where
  | toolUse : String → String → String → ChatBlock     -- toolUseId, name, input
  | toolResult : String → String → List RContent → ChatBlock  -- toolUseId, status, content
  | plain : List Char → ChatBlock
  | otherBlock : ChatBlock
deriving DecidableEq, Repr

/-- One emitted telemetry event. -/
structure ToolEvent where
  name : String
  arguments : String
  status : String
  result_summary : List Char
deriving DecidableEq, Repr

/-- Modelled from the spec: the concatenation of a result's text
blocks. -/
def concatTexts (content : List RContent) : List Char :=
  content.foldr (fun b acc => match b with | .text s => s ++ acc | .other => acc) []

/-- Modelled from the spec: truncate to 200 characters plus a
three-character ellipsis marker if longer. -/
def summarize (cs : List Char) : List Char :=
  if 200 < cs.length then cs.take 200 ++ ['.', '.', '.'] else cs

/-- All content blocks of the reply messages, in order. -/
def allBlocks (msgs : List (List ChatBlock)) : List ChatBlock :=
  msgs.foldr (fun m acc => m ++ acc) []

/-- Modelled from the spec: the first tool-result block carrying the
given invocation identifier. -/
def findToolResult (blocks : List ChatBlock) (uid : String) :
    Option (String × List RContent) :=
  match blocks with
  | [] => none
  | .toolResult rid status content :: rest =>
    if rid = uid then some (status, content) else findToolResult rest uid
  | _ :: rest => findToolResult rest uid

/-- Modelled from the spec: `collect_tool_events_from_messages` —
correlate each tool-invocation block with its result by shared
identifier and emit an event per correlated pair; uncorrelated
invocations are dropped. -/
def collect_tool_events_from_messages (msgs : List (List ChatBlock)) : List ToolEvent :=
  (allBlocks msgs).filterMap (fun b =>
    match b with
    | .toolUse uid name args =>
      match findToolResult (allBlocks msgs) uid with
      | some (status, content) =>
        some { name := name, arguments := args, status := status,
               result_summary := summarize (concatTexts content) }
      | none => none
    | _ => none)

/-!
## Information tool (`src/agents/tools/information.py`)
-/

/-- `information._validate_confidence` composed with the tool body:
Python evaluates `_validate_confidence(confidence)` (raising
`ValueError` outside `[0.0, 1.0]`) before `append_information_record`
runs, so an out-of-range confidence writes nothing. -/
def information (st : StoreState) (sid topic value : String)
    (subtopic fact_type : Option String) (confidence : ℚ) (ts : String) :
    Except Err (String × StoreState) :=
  if 0 ≤ confidence ∧ confidence ≤ 1 then
    match append_information_record st sid topic value subtopic fact_type confidence ts with
    | .error e => .error e
    | .ok (record, st') =>
      .ok ("Recorded information for topic " ++ record.topic ++ ".", st')
  else .error (.validation "confidence must be between 0.0 and 1.0")

/-!
## Concrete fixtures used by witnesses and counterexamples
-/

/-- A store holding two sessions `A` (current) and `B`. -/
def storeAB : StoreState :=
  { dirs := ["A", "B"],
    index := [{ id := "A", created_at := "T0", is_current := true },
              { id := "B", created_at := "T1" }],
    histories := [("A", []), ("B", [])],
    metadatas := [("A", {}), ("B", {})],
    jsonl := [] }

/-- A store holding the single session `s1` with empty documents. -/
def storeS1 : StoreState :=
  { dirs := ["s1"],
    index := [{ id := "s1", created_at := "T0" }],
    histories := [("s1", [])],
    metadatas := [("s1", {})],
    jsonl := [] }

/-- An arbitrary jsonl line used as payload in witnesses. -/
def samplePayload : Payload :=
  .snap { session_id := "s", scores := [], created_at := "T" }

/-!
## Association-list lemmas
-/

theorem lookupA_append {κ β : Type} [DecidableEq κ] (l₁ l₂ : List (κ × β)) (k : κ) :
    lookupA (l₁ ++ l₂) k =
      match lookupA l₁ k with
      | some v => some v
      | none => lookupA l₂ k := by
  induction l₁ with
  | nil => simp [lookupA]
  | cons p rest ih =>
    by_cases h : p.1 = k
    · simp [lookupA, h]
    · simp [lookupA, h, ih]

theorem lookupA_eq_none_of_not_any {κ β : Type} [DecidableEq κ]
    (l : List (κ × β)) (k : κ) (h : l.any (fun p => p.1 = k) = false) :
    lookupA l k = none := by
  induction l with
  | nil => rfl
  | cons p rest ih =>
    rw [List.any_cons] at h
    rcases Bool.or_eq_false_iff.mp h with ⟨h₁, h₂⟩
    have hp : ¬ p.1 = k := by simpa using h₁
    simp [lookupA, hp, ih h₂]

theorem lookupA_map_update_self {κ β : Type} [DecidableEq κ]
    (l : List (κ × β)) (k : κ) (v : β) (h : l.any (fun p => p.1 = k) = true) :
    lookupA (l.map (fun p => if p.1 = k then (k, v) else p)) k = some v := by
  induction l with
  | nil => simp at h
  | cons p rest ih =>
    rw [List.map_cons]
    by_cases hp : p.1 = k
    · rw [if_pos hp]
      simp [lookupA]
    · rw [if_neg hp]
      have h' : rest.any (fun p => p.1 = k) = true := by
        rw [List.any_cons] at h
        simpa [hp] using h
      rw [lookupA, if_neg hp]
      exact ih h'

theorem lookupA_map_update_ne {κ β : Type} [DecidableEq κ]
    (l : List (κ × β)) (k k' : κ) (v : β) (hk : k' ≠ k) :
    lookupA (l.map (fun p => if p.1 = k then (k, v) else p)) k' = lookupA l k' := by
  induction l with
  | nil => rfl
  | cons p rest ih =>
    rw [List.map_cons]
    by_cases hp : p.1 = k
    · rw [if_pos hp]
      have hkk : ¬ (k = k') := fun h => hk h.symm
      have hpk : ¬ (p.1 = k') := by rw [hp]; exact hkk
      rw [lookupA, if_neg hkk, lookupA, if_neg hpk]
      exact ih
    · rw [if_neg hp]
      by_cases hp' : p.1 = k'
      · rw [lookupA, if_pos hp', lookupA, if_pos hp']
      · rw [lookupA, if_neg hp', lookupA, if_neg hp']
        exact ih

theorem lookupA_setA_self {κ β : Type} [DecidableEq κ]
    (l : List (κ × β)) (k : κ) (v : β) : lookupA (setA l k v) k = some v := by
  unfold setA
  by_cases h : l.any (fun p => p.1 = k) = true
  · rw [if_pos h]
    exact lookupA_map_update_self l k v h
  · rw [if_neg h]
    have h' : l.any (fun p => p.1 = k) = false := by
      cases hh : l.any (fun p => p.1 = k) with
      | false => rfl
      | true => exact absurd hh h
    rw [lookupA_append, lookupA_eq_none_of_not_any l k h']
    simp [lookupA]

theorem lookupA_setA_ne {κ β : Type} [DecidableEq κ]
    (l : List (κ × β)) (k k' : κ) (v : β) (hk : k' ≠ k) :
    lookupA (setA l k v) k' = lookupA l k' := by
  unfold setA
  by_cases h : l.any (fun p => p.1 = k) = true
  · rw [if_pos h]
    exact lookupA_map_update_ne l k k' v hk
  · rw [if_neg h, lookupA_append]
    cases hl : lookupA l k' with
    | some w => rfl
    | none =>
      have hkk : ¬ (k = k') := fun hh => hk hh.symm
      simp [lookupA, hkk]

/-!
## Claims about the Conversation Window Manager
-/

/-- With a positive window and `truncate = true`, `prepare_messages`
is the drop of all but the last `windowSize` elements. -/
theorem prepare_messages_true_pos {α : Type} (X : List α) (w : Int) (hw : ¬ w ≤ 0) :
    prepare_messages w true X = X.drop (X.length - w.toNat) := by
  by_cases hX : X.isEmpty
  · have hnil : X = [] := by
      cases X with
      | nil => rfl
      | cons a t => simp [List.isEmpty] at hX
    subst hnil
    simp [prepare_messages]
  · simp [prepare_messages, hX, hw]

/-- C3: for every history `H` of length `n`, every `windowSize w > 0`
and `truncate = true`, `prepare_messages` returns the last
`min n w` elements of `H` in their original order (the suffix obtained
by dropping `n - min n w` elements), of length `min n w`; the stored
history is not touched (the function is pure in this embedding, acting
on an immutable list). -/
theorem prepare_messages_truncates {α : Type} (H : List α) (w : Int) (hw : 0 < w) :
    prepare_messages w true H = H.drop (H.length - min H.length w.toNat) ∧
    (prepare_messages w true H).length = min H.length w.toNat := by
  have hnle : ¬ w ≤ 0 := not_le.mpr hw
  have hdrop : H.length - w.toNat = H.length - min H.length w.toNat := by omega
  constructor
  · rw [prepare_messages_true_pos H w hnle, hdrop]
  · rw [prepare_messages_true_pos H w hnle, List.length_drop]
    omega

/-- Witness for C3 at the spec's scenario: history
`[user "hi", assistant "hello", user "next"]`, `windowSize = 2`,
`truncate = true` gives the last two entries. -/
theorem prepare_messages_truncates_witness :
    (0 : Int) < 2 ∧
    prepare_messages 2 true
        [HistEntry.mk "user" "hi" "t1", HistEntry.mk "assistant" "hello" "t2",
         HistEntry.mk "user" "next" "t3"] =
      [HistEntry.mk "assistant" "hello" "t2", HistEntry.mk "user" "next" "t3"] ∧
    (prepare_messages 2 true
        [HistEntry.mk "user" "hi" "t1", HistEntry.mk "assistant" "hello" "t2",
         HistEntry.mk "user" "next" "t3"]).length = 2 := by
  refine ⟨by decide, ?_, ?_⟩
  · have h := (prepare_messages_truncates
      [HistEntry.mk "user" "hi" "t1", HistEntry.mk "assistant" "hello" "t2",
       HistEntry.mk "user" "next" "t3"] 2 (by decide)).1
    rw [h]; rfl
  · have h := (prepare_messages_truncates
      [HistEntry.mk "user" "hi" "t1", HistEntry.mk "assistant" "hello" "t2",
       HistEntry.mk "user" "next" "t3"] 2 (by decide)).2
    rw [h]; rfl

/-- C8: `prepare_messages` returns the history unchanged whenever
`truncate = false` or `windowSize ≤ 0`, and is idempotent for all
parameter values. -/
theorem prepare_messages_identity_idempotent {α : Type} (H : List α) (w : Int) (b : Bool) :
    (b = false → prepare_messages w b H = H) ∧
    (w ≤ 0 → prepare_messages w b H = H) ∧
    prepare_messages w b (prepare_messages w b H) = prepare_messages w b H := by
  have hnilcase : ∀ (l : List α), l.isEmpty = true → l = [] := by
    intro l hl
    cases l with
    | nil => rfl
    | cons a t => simp [List.isEmpty] at hl
  refine ⟨?_, ?_, ?_⟩
  · intro hb
    subst hb
    by_cases hH : H.isEmpty
    · rw [hnilcase H hH]; rfl
    · by_cases hw : w ≤ 0 <;> simp [prepare_messages, hH, hw]
  · intro hw
    by_cases hH : H.isEmpty
    · rw [hnilcase H hH]; rfl
    · simp [prepare_messages, hH, hw]
  · by_cases hH : H.isEmpty
    · rw [hnilcase H hH]; rfl
    · by_cases hw : w ≤ 0
      · simp [prepare_messages, hH, hw]
      · cases b with
        | false => simp [prepare_messages, hH, hw]
        | true =>
          have hlen : (prepare_messages w true H).length ≤ w.toNat := by
            have h2 := (prepare_messages_truncates H w (by omega)).2
            omega
          have hz : (prepare_messages w true H).length - w.toNat = 0 := by omega
          rw [prepare_messages_true_pos (prepare_messages w true H) w hw, hz,
            List.drop_zero]

/-!
## Claims about the Session Store index operations
-/

theorem countP_current_le_one (l : List SessionRecord) (sid : String)
    (h : (l.map SessionRecord.id).Nodup) :
    l.countP (fun r => decide (r.id = sid)) ≤ 1 := by
  induction l with
  | nil => simp
  | cons r rest ih =>
    rw [List.map_cons, List.nodup_cons] at h
    obtain ⟨hnotin, hrest⟩ := h
    by_cases hr : r.id = sid
    · have hz : rest.countP (fun r => decide (r.id = sid)) = 0 := by
        rw [List.countP_eq_zero]
        intro r' hr'
        simp only [decide_eq_true_eq]
        intro hq
        exact hnotin (by
          rw [hr, ← hq]
          exact List.mem_map_of_mem SessionRecord.id hr')
      rw [List.countP_cons, hz]
      simp [hr]
    · rw [List.countP_cons]
      have := ih hrest
      simp [hr]
      omega

/-- C5: when `sid` occurs in the index, `mark_current` succeeds and
every index record reports `is_current` exactly when its id is `sid`
(so `sid`'s record is current, all others are cleared, and — with the
store invariant that ids are unique — at most one record is current);
when `sid` is absent, it fails `SessionNotFoundError` and the persisted
index is unchanged. -/
theorem mark_current_exclusive (st : StoreState) (sid : String) :
    (st.index.any (fun r => r.id = sid) = true →
      ∃ st', mark_current st sid = .ok st' ∧
        (∀ r ∈ st'.index, r.is_current = decide (r.id = sid)) ∧
        (∃ r ∈ st'.index, r.id = sid ∧ r.is_current = true) ∧
        ((st.index.map SessionRecord.id).Nodup →
          st'.index.countP (fun r => r.is_current) ≤ 1)) ∧
    (st.index.any (fun r => r.id = sid) = false →
      isNotFoundErr (mark_current st sid) = true ∧
      stateAfterOp st (mark_current st sid) = st) := by
  constructor
  · intro h
    refine ⟨_, by rw [mark_current, if_pos h], ?_, ?_, ?_⟩
    · intro r hr
      rcases List.mem_map.mp hr with ⟨r₀, _, rfl⟩
      rfl
    · rcases List.any_eq_true.mp h with ⟨r₀, hr₀, hid⟩
      have hid' : r₀.id = sid := of_decide_eq_true hid
      refine ⟨{ r₀ with is_current := decide (r₀.id = sid) },
        List.mem_map_of_mem _ hr₀, hid', by simp [hid']⟩
    · intro hnd
      have : (st.index.map (fun r => { r with is_current := decide (r.id = sid) })).countP
          (fun r => r.is_current) =
          st.index.countP (fun r => decide (r.id = sid)) := by
        rw [List.countP_map]
        rfl
      simpa [this] using countP_current_le_one st.index sid hnd
  · intro h
    have h' : ¬ st.index.any (fun r => r.id = sid) = true := by simp [h]
    constructor
    · rw [mark_current, if_neg h']; rfl
    · rw [mark_current, if_neg h']; rfl

/-- Witness for C5 on the two-session store: marking `B` current clears
`A`; marking an absent id fails `NotFound` with the index unchanged. -/
theorem mark_current_exclusive_witness :
    (∃ st', mark_current storeAB "B" = .ok st' ∧
      (∀ r ∈ st'.index, r.is_current = decide (r.id = "B")) ∧
      (∃ r ∈ st'.index, r.id = "B" ∧ r.is_current = true) ∧
      ((storeAB.index.map SessionRecord.id).Nodup →
        st'.index.countP (fun r => r.is_current) ≤ 1)) ∧
    isNotFoundErr (mark_current storeAB "ghost") = true ∧
    stateAfterOp storeAB (mark_current storeAB "ghost") = storeAB :=
  ⟨(mark_current_exclusive storeAB "B").1 (by decide),
   ((mark_current_exclusive storeAB "ghost").2 (by decide)).1,
   ((mark_current_exclusive storeAB "ghost").2 (by decide)).2⟩

theorem lookupA_eq_none_of_all_keys_ne {κ β : Type} [DecidableEq κ]
    (l : List (κ × β)) (k : κ) (h : ∀ p ∈ l, p.1 ≠ k) : lookupA l k = none := by
  induction l with
  | nil => rfl
  | cons p rest ih =>
    have hp : ¬ p.1 = k := h p (List.mem_cons_self p rest)
    rw [lookupA, if_neg hp]
    exact ih (fun q hq => h q (List.mem_cons_of_mem p hq))

/-- Everything the code does on a fully absent session id: the
index-targeted operations and the ledger-layer wrappers raise
`SessionNotFoundError`; the store-level jsonl read silently returns the
empty list, the store-level jsonl append silently creates the session
directory, and the whole-document history read raises the base
`SessionStoreError` (not `SessionNotFoundError`). -/
theorem ops_on_absent_session (st : StoreState) (sid d fname : String)
    (payload : Payload) (h : sessionAbsent st sid) :
    isNotFoundErr (mark_current st sid) = true ∧
    isNotFoundErr (update_description st sid d) = true ∧
    isNotFoundErr (delete_session st sid) = true ∧
    isNotFoundErr (ledgerAppendJsonl st sid fname payload) = true ∧
    isNotFoundErr (ledgerReadJsonl st sid fname) = true ∧
    read_jsonl st sid fname = [] ∧
    session_exists (append_jsonl st sid fname payload) sid = true ∧
    isBaseStoreErr (read_history st sid) = true ∧
    isNotFoundErr (read_history st sid) = false := by
  obtain ⟨hdirs, hindex, hhist, hmeta, hjsonl⟩ := h
  have hany : ¬ st.index.any (fun r => r.id = sid) = true := by
    rw [List.any_eq_true]
    rintro ⟨r, hr, hid⟩
    have := List.all_eq_true.mp hindex r hr
    exact absurd (of_decide_eq_true hid) (by simpa using this)
  have hex : ¬ session_exists st sid = true := by
    rw [session_exists, hdirs]
    simp
  have hjl : lookupA st.jsonl (sid, fname) = none := by
    apply lookupA_eq_none_of_all_keys_ne
    intro p hp
    have hne : p.1.1 ≠ sid := by
      simpa using List.all_eq_true.mp hjsonl p hp
    intro hk
    exact hne (by rw [hk])
  refine ⟨?_, ?_, ?_, ?_, ?_, ?_, ?_, ?_, ?_⟩
  · rw [mark_current, if_neg hany]; rfl
  · rw [update_description, if_neg hany]; rfl
  · rw [delete_session, if_neg (by simpa [session_exists] using hex)]; rfl
  · rw [ledgerAppendJsonl, if_neg hex]; rfl
  · rw [ledgerReadJsonl, if_neg hex]; rfl
  · rw [read_jsonl, hjl]; rfl
  · have hc : st.dirs.contains sid = false := hdirs
    rw [session_exists, append_jsonl]
    simp only [hc]
    rw [if_neg (by simp [hc])]
    rw [List.elem_iff]
    exact List.mem_append_right _ (List.mem_singleton.mpr rfl)
  · rw [read_history, hhist]; rfl
  · rw [read_history, hhist]; rfl

/-- C2 refuted: with session id `ghost` fully absent from the concrete
store `storeAB`, the Session Store's own `read_jsonl` (readEvents)
returns the empty list instead of failing NotFound, and its
`append_jsonl` (appendEvent) creates the session directory instead of
failing NotFound. -/
theorem absent_session_silent_default_counterexample :
    sessionAbsent storeAB "ghost" ∧
    read_jsonl storeAB "ghost" "completeness.jsonl" = [] ∧
    session_exists
      (append_jsonl storeAB "ghost" "completeness.jsonl" samplePayload) "ghost" = true := by
  refine ⟨by decide, rfl, by decide⟩

/-- C2 (amended): for a session id fully absent from the store, the
index-targeted operations (`mark_current`, `update_description`,
`delete_session`) and the ledger layer's event wrappers
(`_append_jsonl` / `_read_jsonl` in `completeness_common`, which check
existence before delegating) fail with `SessionNotFoundError`; but the
`SessionStore` methods `append_jsonl` / `read_jsonl` themselves perform
no existence check — reading events of an absent session silently
returns the empty list, appending an event silently creates the
session directory — and `read_history` of an absent session raises the
base `SessionStoreError`, not NotFound. -/
theorem absent_session_notfound_amended (st : StoreState) (sid d fname : String)
    (payload : Payload) (h : sessionAbsent st sid) :
    isNotFoundErr (mark_current st sid) = true ∧
    isNotFoundErr (update_description st sid d) = true ∧
    isNotFoundErr (delete_session st sid) = true ∧
    isNotFoundErr (ledgerAppendJsonl st sid fname payload) = true ∧
    isNotFoundErr (ledgerReadJsonl st sid fname) = true ∧
    read_jsonl st sid fname = [] ∧
    session_exists (append_jsonl st sid fname payload) sid = true ∧
    isBaseStoreErr (read_history st sid) = true ∧
    isNotFoundErr (read_history st sid) = false :=
  ops_on_absent_session st sid d fname payload h

/-- Witness for C2 (amended) at `storeAB` and the absent id `ghost`. -/
theorem absent_session_notfound_amended_witness :
    isNotFoundErr (mark_current storeAB "ghost") = true ∧
    isNotFoundErr (update_description storeAB "ghost" "d") = true ∧
    isNotFoundErr (delete_session storeAB "ghost") = true ∧
    isNotFoundErr (ledgerAppendJsonl storeAB "ghost" "x.jsonl" samplePayload) = true ∧
    isNotFoundErr (ledgerReadJsonl storeAB "ghost" "x.jsonl") = true ∧
    read_jsonl storeAB "ghost" "x.jsonl" = [] ∧
    session_exists (append_jsonl storeAB "ghost" "x.jsonl" samplePayload) "ghost" = true ∧
    isBaseStoreErr (read_history storeAB "ghost") = true ∧
    isNotFoundErr (read_history storeAB "ghost") = false :=
  absent_session_notfound_amended storeAB "ghost" "d" "x.jsonl" samplePayload (by decide)

theorem contains_filter_ne_self (l : List String) (sid : String) :
    (l.filter (fun d => d ≠ sid)).contains sid = false := by
  cases hc : (l.filter (fun d => d ≠ sid)).contains sid with
  | false => rfl
  | true =>
    have hm := List.elem_iff.mp hc
    have := List.of_mem_filter hm
    simp at this

/-- Deleting an existing session leaves its id fully absent from the
resulting store state. -/
theorem sessionAbsent_after_delete (st st' : StoreState) (sid : String)
    (h : delete_session st sid = .ok st') : sessionAbsent st' sid := by
  by_cases hc : st.dirs.contains sid = true
  · rw [delete_session, if_pos hc] at h
    cases h
    refine ⟨contains_filter_ne_self st.dirs sid, ?_, ?_, ?_, ?_⟩
    · rw [List.all_eq_true]
      intro r hr
      have := List.of_mem_filter hr
      simpa using this
    · apply lookupA_eq_none_of_all_keys_ne
      intro p hp
      have := List.of_mem_filter hp
      simpa using this
    · apply lookupA_eq_none_of_all_keys_ne
      intro p hp
      have := List.of_mem_filter hp
      simpa using this
    · rw [List.all_eq_true]
      intro p hp
      have := List.of_mem_filter hp
      simpa using this
  · rw [delete_session, if_neg hc] at h
    cases h

/-- C6 refuted on its "any further operation raises NotFound" part:
after deleting session `A` from the concrete store `storeAB` (the
deletion itself succeeding, `exists` becoming false), the store-level
`read_jsonl` on `A` succeeds with the empty list, `append_jsonl`
silently recreates the session directory, and `read_history` raises
the base `SessionStoreError` rather than `SessionNotFoundError`. -/
theorem delete_session_counterexample :
    session_exists (stateAfterOp storeAB (delete_session storeAB "A")) "A" = false ∧
    read_jsonl (stateAfterOp storeAB (delete_session storeAB "A"))
      "A" "completeness.jsonl" = [] ∧
    session_exists
      (append_jsonl (stateAfterOp storeAB (delete_session storeAB "A"))
        "A" "completeness.jsonl" samplePayload) "A" = true ∧
    isNotFoundErr
      (read_history (stateAfterOp storeAB (delete_session storeAB "A")) "A") = false ∧
    isBaseStoreErr
      (read_history (stateAfterOp storeAB (delete_session storeAB "A")) "A") = true := by
  refine ⟨by decide, rfl, by decide, by decide, by decide⟩

/-- C6 (amended): deleting an existing session removes it from
`list()` and makes `exists()` false, and the index-targeted operations
and ledger-layer event wrappers on that id subsequently raise
`SessionNotFoundError`; deleting an absent id fails NotFound with the
store unchanged.  However, not every further operation raises NotFound:
the store-level `read_jsonl` returns the empty list, `append_jsonl`
recreates the session, and `read_history` raises the base
`SessionStoreError`. -/
theorem delete_session_amended (st : StoreState) (sid d fname : String)
    (payload : Payload) :
    (session_exists st sid = true →
      ∃ st', delete_session st sid = .ok st' ∧
        (∀ r ∈ list_sessions st', r.id ≠ sid) ∧
        session_exists st' sid = false ∧
        isNotFoundErr (mark_current st' sid) = true ∧
        isNotFoundErr (update_description st' sid d) = true ∧
        isNotFoundErr (delete_session st' sid) = true ∧
        isNotFoundErr (ledgerAppendJsonl st' sid fname payload) = true ∧
        isNotFoundErr (ledgerReadJsonl st' sid fname) = true ∧
        read_jsonl st' sid fname = [] ∧
        session_exists (append_jsonl st' sid fname payload) sid = true ∧
        isBaseStoreErr (read_history st' sid) = true ∧
        isNotFoundErr (read_history st' sid) = false) ∧
    (session_exists st sid = false →
      isNotFoundErr (delete_session st sid) = true ∧
      stateAfterOp st (delete_session st sid) = st) := by
  constructor
  · intro hex
    have hdel : delete_session st sid =
        .ok { dirs := st.dirs.filter (fun d => d ≠ sid),
              index := st.index.filter (fun r => r.id ≠ sid),
              histories := st.histories.filter (fun p => p.1 ≠ sid),
              metadatas := st.metadatas.filter (fun p => p.1 ≠ sid),
              jsonl := st.jsonl.filter (fun p => p.1.1 ≠ sid) } := by
      rw [delete_session, if_pos (show st.dirs.contains sid = true from hex)]
    have habs := sessionAbsent_after_delete st _ sid hdel
    have hops := ops_on_absent_session _ sid d fname payload habs
    refine ⟨_, hdel, ?_, ?_, hops.1, hops.2.1, hops.2.2.1, hops.2.2.2.1,
      hops.2.2.2.2.1, hops.2.2.2.2.2.1, hops.2.2.2.2.2.2.1,
      hops.2.2.2.2.2.2.2.1, hops.2.2.2.2.2.2.2.2⟩
    · intro r hr
      have := List.of_mem_filter hr
      simpa using this
    · rw [session_exists, habs.1]
  · intro hne
    have h' : ¬ st.dirs.contains sid = true := by
      rw [session_exists] at hne
      rw [hne]
      simp
    constructor
    · rw [delete_session, if_neg h']; rfl
    · rw [delete_session, if_neg h']; rfl

/-- Witness for C6 (amended) at `storeAB`: deleting the existing `A`
and the absent `ghost`. -/
theorem delete_session_amended_witness :
    (∃ st', delete_session storeAB "A" = .ok st' ∧
      (∀ r ∈ list_sessions st', r.id ≠ "A") ∧
      session_exists st' "A" = false ∧
      isNotFoundErr (mark_current st' "A") = true ∧
      isNotFoundErr (update_description st' "A" "d") = true ∧
      isNotFoundErr (delete_session st' "A") = true ∧
      isNotFoundErr (ledgerAppendJsonl st' "A" "x.jsonl" samplePayload) = true ∧
      isNotFoundErr (ledgerReadJsonl st' "A" "x.jsonl") = true ∧
      read_jsonl st' "A" "x.jsonl" = [] ∧
      session_exists (append_jsonl st' "A" "x.jsonl" samplePayload) "A" = true ∧
      isBaseStoreErr (read_history st' "A") = true ∧
      isNotFoundErr (read_history st' "A") = false) ∧
    isNotFoundErr (delete_session storeAB "ghost") = true ∧
    stateAfterOp storeAB (delete_session storeAB "ghost") = storeAB :=
  ⟨(delete_session_amended storeAB "A" "d" "x.jsonl" samplePayload).1 (by decide),
   ((delete_session_amended storeAB "ghost" "d" "x.jsonl" samplePayload).2 (by decide)).1,
   ((delete_session_amended storeAB "ghost" "d" "x.jsonl" samplePayload).2 (by decide)).2⟩

/-!
## Claims about the Topic Ledger
-/

theorem validateEntry_ok_of_valid (e : RawScoreEntry) (h : entryValid e = true) :
    validateEntry e = .ok (normalizeEntry e) := by
  rw [entryValid] at h
  rcases Bool.and_eq_true_iff.mp h with ⟨htop, hsc⟩
  have hmem : e.topic ∈ CANONICAL_TOPICS := List.elem_iff.mp htop
  cases hs : e.score with
  | int n =>
    rw [hs] at hsc
    have hr : 0 ≤ n ∧ n ≤ 100 := of_decide_eq_true hsc
    simp [validateEntry, validate_topic, hmem, hs, hr, normalizeEntry]
  | notInt => rw [hs] at hsc; cases hsc

theorem validateEntry_error_of_invalid (e : RawScoreEntry) (h : entryValid e = false) :
    ∃ m, validateEntry e = .error (.validation m) := by
  rw [entryValid] at h
  by_cases htop : CANONICAL_TOPICS.contains e.topic = true
  · have hmem : e.topic ∈ CANONICAL_TOPICS := List.elem_iff.mp htop
    rw [htop, Bool.true_and] at h
    cases hs : e.score with
    | int n =>
      rw [hs] at h
      have hr : ¬ (0 ≤ n ∧ n ≤ 100) := of_decide_eq_false h
      exact ⟨"Score for topic " ++ e.topic ++ " out of range",
        by simp [validateEntry, validate_topic, hmem, hs, hr]⟩
    | notInt =>
      exact ⟨"Score for topic " ++ e.topic ++ " not an integer",
        by simp [validateEntry, validate_topic, hmem, hs]⟩
  · have hnmem : e.topic ∉ CANONICAL_TOPICS := by
      intro hm
      exact htop (List.elem_iff.mpr hm)
    exact ⟨"Invalid topic " ++ e.topic,
      by simp [validateEntry, validate_topic, hnmem]⟩

theorem validateAll_ok_of_all_valid (scores : List RawScoreEntry)
    (h : scores.all entryValid = true) :
    validateAll scores = .ok (scores.map normalizeEntry) := by
  induction scores with
  | nil => rfl
  | cons e rest ih =>
    rw [List.all_cons, Bool.and_eq_true] at h
    rw [validateAll, validateEntry_ok_of_valid e h.1, ih h.2, List.map_cons]

theorem validateAll_error_of_any_invalid (scores : List RawScoreEntry)
    (h : scores.any (fun e => !entryValid e) = true) :
    ∃ m, validateAll scores = .error (.validation m) := by
  induction scores with
  | nil => simp at h
  | cons e rest ih =>
    by_cases he : entryValid e = true
    · have hrest : rest.any (fun e => !entryValid e) = true := by
        rw [List.any_cons, he] at h
        simpa using h
      obtain ⟨m, hm⟩ := ih hrest
      rw [validateAll, validateEntry_ok_of_valid e he, hm]
      exact ⟨m, rfl⟩
    · have he' : entryValid e = false := by
        cases hc : entryValid e with
        | false => rfl
        | true => exact absurd hc he
      obtain ⟨m, hm⟩ := validateEntry_error_of_invalid e he'
      rw [validateAll, hm]
      exact ⟨m, rfl⟩

/-- Appending one jsonl line and reading the same file back gives the
old contents with the line at the end. -/
theorem read_jsonl_append_self (st : StoreState) (sid fname : String) (p : Payload) :
    read_jsonl (append_jsonl st sid fname p) sid fname =
      read_jsonl st sid fname ++ [p] := by
  unfold read_jsonl append_jsonl
  rw [lookupA_setA_self]
  rfl

/-- Appending a jsonl line leaves every other session/file pair
unchanged. -/
theorem read_jsonl_append_other (st : StoreState) (sid fname sid' fname' : String)
    (p : Payload) (h : (sid', fname') ≠ (sid, fname)) :
    read_jsonl (append_jsonl st sid fname p) sid' fname' =
      read_jsonl st sid' fname' := by
  unfold read_jsonl append_jsonl
  rw [lookupA_setA_ne _ _ _ _ h]

/-- C4: a completeness batch with any invalid entry (non-canonical
topic, non-integer score, or score outside `[0,100]`) is rejected whole
with a `ValueError` and the completeness log is identical before and
after; a batch of only valid entries appends exactly one snapshot
containing all entries (in order, topics/scores/reasons preserved). -/
theorem append_completeness_batch_validation (st : StoreState) (sid ts : String)
    (scores : List RawScoreEntry) (hex : session_exists st sid = true) :
    (scores.any (fun e => !entryValid e) = true →
      isValidationErr (append_completeness_snapshot st sid scores ts) = true ∧
      read_jsonl (stateAfterPair st (append_completeness_snapshot st sid scores ts))
          sid COMPLETENESS_FILENAME =
        read_jsonl st sid COMPLETENESS_FILENAME) ∧
    (scores.all entryValid = true →
      append_completeness_snapshot st sid scores ts =
        .ok ({ session_id := sid, scores := scores.map normalizeEntry, created_at := ts },
          append_jsonl st sid COMPLETENESS_FILENAME
            (.snap { session_id := sid, scores := scores.map normalizeEntry,
                     created_at := ts })) ∧
      read_jsonl
          (stateAfterPair st (append_completeness_snapshot st sid scores ts))
          sid COMPLETENESS_FILENAME =
        read_jsonl st sid COMPLETENESS_FILENAME ++
          [.snap { session_id := sid, scores := scores.map normalizeEntry,
                   created_at := ts }]) := by
  constructor
  · intro hbad
    obtain ⟨m, hm⟩ := validateAll_error_of_any_invalid scores hbad
    rw [append_completeness_snapshot, hm]
    exact ⟨rfl, rfl⟩
  · intro hgood
    have hok : append_completeness_snapshot st sid scores ts =
        .ok ({ session_id := sid, scores := scores.map normalizeEntry, created_at := ts },
          append_jsonl st sid COMPLETENESS_FILENAME
            (.snap { session_id := sid, scores := scores.map normalizeEntry,
                     created_at := ts })) := by
      simp only [append_completeness_snapshot, validateAll_ok_of_all_valid scores hgood,
        ledgerAppendJsonl, hex, if_true]
    refine ⟨hok, ?_⟩
    rw [hok]
    exact read_jsonl_append_self st sid COMPLETENESS_FILENAME _

/-- Witness for C4 on the single-session store: the spec's invalid
scenario (`income_cash_flow` scored 150) writes nothing, and a valid
batch appends exactly one snapshot. -/
theorem append_completeness_batch_validation_witness :
    (isValidationErr (append_completeness_snapshot storeS1 "s1"
        [{ topic := "income_cash_flow", score := .int 150, reason := none }] "T1") = true ∧
      read_jsonl (stateAfterPair storeS1 (append_completeness_snapshot storeS1 "s1"
          [{ topic := "income_cash_flow", score := .int 150, reason := none }] "T1"))
        "s1" COMPLETENESS_FILENAME = read_jsonl storeS1 "s1" COMPLETENESS_FILENAME) ∧
    (append_completeness_snapshot storeS1 "s1"
        [{ topic := "income_cash_flow", score := .int 80, reason := some "ok" }] "T1" =
      .ok ({ session_id := "s1",
             scores := [{ topic := "income_cash_flow", score := 80, reason := some "ok" }],
             created_at := "T1" },
        append_jsonl storeS1 "s1" COMPLETENESS_FILENAME
          (.snap { session_id := "s1",
                   scores := [{ topic := "income_cash_flow", score := 80,
                                reason := some "ok" }],
                   created_at := "T1" })) ∧
      read_jsonl (stateAfterPair storeS1 (append_completeness_snapshot storeS1 "s1"
          [{ topic := "income_cash_flow", score := .int 80, reason := some "ok" }] "T1"))
        "s1" COMPLETENESS_FILENAME =
      read_jsonl storeS1 "s1" COMPLETENESS_FILENAME ++
        [.snap { session_id := "s1",
                 scores := [{ topic := "income_cash_flow", score := 80,
                              reason := some "ok" }],
                 created_at := "T1" }]) :=
  ⟨(append_completeness_batch_validation storeS1 "s1" "T1"
      [{ topic := "income_cash_flow", score := .int 150, reason := none }]
      (by decide)).1 (by decide),
   (append_completeness_batch_validation storeS1 "s1" "T1"
      [{ topic := "income_cash_flow", score := .int 80, reason := some "ok" }]
      (by decide)).2 (by decide)⟩

/-!
## Claims about the information tool
-/

/-- C10: an out-of-range confidence makes the `information` tool raise
`ValueError` with the information ledger untouched, while the
underlying `append_information_record` accepts any confidence at all
(no range check of its own) — the guard exists only at the tool
layer. -/
theorem information_confidence_guard (st : StoreState) (sid topic value : String)
    (subtopic fact_type : Option String) (confidence : ℚ) (ts : String)
    (hout : ¬ (0 ≤ confidence ∧ confidence ≤ 1)) :
    isValidationErr (information st sid topic value subtopic fact_type confidence ts) = true ∧
    stateAfterPair st (information st sid topic value subtopic fact_type confidence ts) = st ∧
    read_jsonl (stateAfterPair st
        (information st sid topic value subtopic fact_type confidence ts))
        sid INFORMATION_FILENAME =
      read_jsonl st sid INFORMATION_FILENAME ∧
    (∀ c : ℚ, CANONICAL_TOPICS.contains topic = true → session_exists st sid = true →
      append_information_record st sid topic value subtopic fact_type c ts =
        .ok ({ session_id := sid, topic := topic, value := value, subtopic := subtopic,
               fact_type := fact_type, confidence := c, created_at := ts },
          append_jsonl st sid INFORMATION_FILENAME
            (.info { session_id := sid, topic := topic, value := value,
                     subtopic := subtopic, fact_type := fact_type, confidence := c,
                     created_at := ts })) ∧
      read_jsonl (append_jsonl st sid INFORMATION_FILENAME
          (.info { session_id := sid, topic := topic, value := value,
                   subtopic := subtopic, fact_type := fact_type, confidence := c,
                   created_at := ts })) sid INFORMATION_FILENAME =
        read_jsonl st sid INFORMATION_FILENAME ++
          [.info { session_id := sid, topic := topic, value := value,
                   subtopic := subtopic, fact_type := fact_type, confidence := c,
                   created_at := ts }]) := by
  have herr : information st sid topic value subtopic fact_type confidence ts =
      .error (.validation "confidence must be between 0.0 and 1.0") := by
    rw [information, if_neg hout]
  refine ⟨by rw [herr]; rfl, by rw [herr]; rfl, by rw [herr]; rfl, ?_⟩
  intro c htop hex
  constructor
  · simp only [append_information_record, validate_topic, htop, if_true,
      ledgerAppendJsonl, hex]
  · exact read_jsonl_append_self st sid INFORMATION_FILENAME _

/-- Witness for C10: confidence 2 is rejected with the ledger
unchanged, while `append_information_record` happily writes
confidence 7/2. -/
theorem information_confidence_guard_witness :
    ¬ ((0 : ℚ) ≤ 2 ∧ (2 : ℚ) ≤ 1) ∧
    isValidationErr (information storeS1 "s1" "income_cash_flow" "Retire at 55"
      none none 2 "T1") = true ∧
    stateAfterPair storeS1 (information storeS1 "s1" "income_cash_flow" "Retire at 55"
      none none 2 "T1") = storeS1 ∧
    (append_information_record storeS1 "s1" "income_cash_flow" "Retire at 55"
        none none (7/2 : ℚ) "T1" =
      .ok ({ session_id := "s1", topic := "income_cash_flow", value := "Retire at 55",
             subtopic := none, fact_type := none, confidence := (7/2 : ℚ),
             created_at := "T1" },
        append_jsonl storeS1 "s1" INFORMATION_FILENAME
          (.info { session_id := "s1", topic := "income_cash_flow",
                   value := "Retire at 55", subtopic := none, fact_type := none,
                   confidence := (7/2 : ℚ), created_at := "T1" }))) := by
  have h := information_confidence_guard storeS1 "s1" "income_cash_flow" "Retire at 55"
    none none 2 "T1" (by norm_num)
  exact ⟨by norm_num, h.1, h.2.1,
    ((h.2.2.2 (7/2 : ℚ) (by decide) (by decide)).1)⟩

/-- Witness for C8 at `w = -1`, `b = false` on a three-element
history. -/
theorem prepare_messages_identity_idempotent_witness :
    prepare_messages (-1) false [1, 2, 3] = [1, 2, 3] ∧
    prepare_messages (-1) false [1, 2, 3] = [1, 2, 3] ∧
    prepare_messages (-1) false (prepare_messages (-1) false [1, 2, 3]) =
      prepare_messages (-1) false [1, 2, 3] :=
  ⟨(prepare_messages_identity_idempotent [1, 2, 3] (-1) false).1 rfl,
   (prepare_messages_identity_idempotent [1, 2, 3] (-1) false).2.1 (by decide),
   (prepare_messages_identity_idempotent [1, 2, 3] (-1) false).2.2⟩

/-!
## Claims about the Turn Execution Pipeline
-/

/-- C1: in every turn the user input is appended to history and that
history is persisted before the model is invoked (the first two trace
events, for any agent); and when the model invocation fails, the turn
appends a message stamped with the user entry's timestamp to the
metadata error log, persists the metadata, returns no result, the
persisted history is exactly the prior history plus the user entry (no
assistant entry), and nothing else is written. -/
theorem execute_turn_persists_user_and_logs_failure
    (agent : String → AgentOutcome) (st : StoreState) (sid : String)
    (history : List HistEntry) (metadata : Metadata) (userInput ts1 ts2 msg : String)
    (hfail : agent userInput = .fail msg) :
    (∀ ag : String → AgentOutcome,
      (execute_turn ag st sid history metadata userInput ts1 ts2).trace.take 2 =
        [.wroteHistory (history ++
            [{ role := "user", content := userInput, timestamp := ts1 }]),
         .invokedModel userInput] ∧
      ∃ rest, lookupA (execute_turn ag st sid history metadata userInput ts1 ts2).store.histories
          sid =
        some (history ++
          { role := "user", content := userInput, timestamp := ts1 } :: rest)) ∧
    (execute_turn agent st sid history metadata userInput ts1 ts2).response = none ∧
    lookupA (execute_turn agent st sid history metadata userInput ts1 ts2).store.histories
        sid =
      some (history ++ [{ role := "user", content := userInput, timestamp := ts1 }]) ∧
    (execute_turn agent st sid history metadata userInput ts1 ts2).metadata =
      { metadata with errors := metadata.errors ++ [{ timestamp := ts1, message := msg }] } ∧
    lookupA (execute_turn agent st sid history metadata userInput ts1 ts2).store.metadatas
        sid =
      some { metadata with
             errors := metadata.errors ++ [{ timestamp := ts1, message := msg }] } ∧
    (execute_turn agent st sid history metadata userInput ts1 ts2).trace =
      [.wroteHistory (history ++
          [{ role := "user", content := userInput, timestamp := ts1 }]),
       .invokedModel userInput,
       .wroteMetadata { metadata with
         errors := metadata.errors ++ [{ timestamp := ts1, message := msg }] }] := by
  have hgen : ∀ ag : String → AgentOutcome,
      (execute_turn ag st sid history metadata userInput ts1 ts2).trace.take 2 =
        [.wroteHistory (history ++
            [{ role := "user", content := userInput, timestamp := ts1 }]),
         .invokedModel userInput] ∧
      ∃ rest, lookupA (execute_turn ag st sid history metadata userInput ts1 ts2).store.histories
          sid =
        some (history ++
          { role := "user", content := userInput, timestamp := ts1 } :: rest) := by
    intro ag
    cases hag : ag userInput with
    | fail m =>
      rw [execute_turn, hag]
      refine ⟨rfl, [], ?_⟩
      simp only [write_metadata, write_history]
      rw [lookupA_setA_self]
    | ok result =>
      rw [execute_turn, hag]
      constructor
      · rfl
      · refine ⟨[{ role := "assistant",
                   content := (if extract_text_from_message result.message = ""
                     then "[No response]" else extract_text_from_message result.message),
                   timestamp := ts2 }], ?_⟩
        simp only [write_metadata, write_history]
        rw [lookupA_setA_self]
        simp
  have hrun : execute_turn agent st sid history metadata userInput ts1 ts2 =
      { response := none,
        store := write_metadata
          (write_history st sid (history ++
            [{ role := "user", content := userInput, timestamp := ts1 }])) sid
          { metadata with
            errors := metadata.errors ++ [{ timestamp := ts1, message := msg }] },
        history := history ++ [{ role := "user", content := userInput, timestamp := ts1 }],
        metadata := { metadata with
          errors := metadata.errors ++ [{ timestamp := ts1, message := msg }] },
        trace := [.wroteHistory (history ++
            [{ role := "user", content := userInput, timestamp := ts1 }]),
          .invokedModel userInput,
          .wroteMetadata { metadata with
            errors := metadata.errors ++ [{ timestamp := ts1, message := msg }] }] } := by
    rw [execute_turn, hfail]
  refine ⟨hgen, ?_, ?_, ?_, ?_, ?_⟩
  · rw [hrun]
  · rw [hrun]
    simp only [write_metadata, write_history]
    rw [lookupA_setA_self]
  · rw [hrun]
  · rw [hrun]
    simp only [write_metadata, write_history]
    rw [lookupA_setA_self]
  · rw [hrun]

/-- Witness for C1: a concrete turn on `storeS1` whose agent raises. -/
theorem execute_turn_persists_user_and_logs_failure_witness :
    ((fun (_ : String) => AgentOutcome.fail "boom") "hello" = .fail "boom") ∧
    (execute_turn (fun _ => .fail "boom") storeS1 "s1" [] {} "hello" "t1" "t2").response =
      none ∧
    lookupA (execute_turn (fun _ => .fail "boom") storeS1 "s1" [] {} "hello" "t1"
        "t2").store.histories "s1" =
      some [{ role := "user", content := "hello", timestamp := "t1" }] ∧
    (execute_turn (fun _ => .fail "boom") storeS1 "s1" [] {} "hello" "t1" "t2").metadata =
      { errors := [{ timestamp := "t1", message := "boom" }] } ∧
    lookupA (execute_turn (fun _ => .fail "boom") storeS1 "s1" [] {} "hello" "t1"
        "t2").store.metadatas "s1" =
      some { errors := [{ timestamp := "t1", message := "boom" }] } := by
  have h := execute_turn_persists_user_and_logs_failure (fun _ => .fail "boom")
    storeS1 "s1" [] {} "hello" "t1" "t2" "boom" rfl
  exact ⟨rfl, h.2.1, h.2.2.1, h.2.2.2.1, h.2.2.2.2.1⟩

/-!
## Claims about tool-call telemetry
-/

/-- C9: every correlated tool-call/tool-result pair makes the emitted
event carry a result summary equal to the concatenation of the result's
text blocks truncated to 200 characters plus the three-character
ellipsis marker when longer, so a 300-character result text yields a
summary of exactly 203 ≤ 203 characters. -/
theorem tool_event_summary_truncation (msgs : List (List ChatBlock))
    (uid name args status : String) (content : List RContent)
    (hu : ChatBlock.toolUse uid name args ∈ allBlocks msgs)
    (hr : findToolResult (allBlocks msgs) uid = some (status, content)) :
    ({ name := name, arguments := args, status := status,
       result_summary := summarize (concatTexts content) } : ToolEvent) ∈
      collect_tool_events_from_messages msgs ∧
    (summarize (concatTexts content)).length =
      min (concatTexts content).length 200 +
        (if 200 < (concatTexts content).length then 3 else 0) ∧
    ((concatTexts content).length = 300 →
      (summarize (concatTexts content)).length = 203) := by
  have hlen : (summarize (concatTexts content)).length =
      min (concatTexts content).length 200 +
        (if 200 < (concatTexts content).length then 3 else 0) := by
    unfold summarize
    by_cases h : 200 < (concatTexts content).length
    · rw [if_pos h, if_pos h, List.length_append, List.length_take]
      simp only [List.length_cons, List.length_nil]
      omega
    · rw [if_neg h, if_neg h]
      omega
  refine ⟨?_, hlen, ?_⟩
  · apply List.mem_filterMap.mpr
    refine ⟨.toolUse uid name args, hu, ?_⟩
    simp only [hr]
  · intro h300
    rw [hlen, h300]
    rfl

/-- Witness for C9 on the test scenario: one tool call correlated with
a 300-character success result. -/
theorem tool_event_summary_truncation_witness :
    (ChatBlock.toolUse "abc" "retirement_readiness" "age54" ∈
      allBlocks [[ChatBlock.toolUse "abc" "retirement_readiness" "age54"],
        [ChatBlock.toolResult "abc" "success"
          [RContent.text (List.replicate 300 'A')]]]) ∧
    ({ name := "retirement_readiness", arguments := "age54", status := "success",
       result_summary :=
         summarize (concatTexts [RContent.text (List.replicate 300 'A')]) } : ToolEvent) ∈
      collect_tool_events_from_messages
        [[ChatBlock.toolUse "abc" "retirement_readiness" "age54"],
         [ChatBlock.toolResult "abc" "success"
           [RContent.text (List.replicate 300 'A')]]] ∧
    (summarize (concatTexts [RContent.text (List.replicate 300 'A')])).length = 203 := by
  have h := tool_event_summary_truncation
    [[ChatBlock.toolUse "abc" "retirement_readiness" "age54"],
     [ChatBlock.toolResult "abc" "success" [RContent.text (List.replicate 300 'A')]]]
    "abc" "retirement_readiness" "age54" "success"
    [RContent.text (List.replicate 300 'A')]
    (by decide) rfl
  have hc : concatTexts [RContent.text (List.replicate 300 'A')] =
      List.replicate 300 'A' := by
    show List.replicate 300 'A' ++ [] = List.replicate 300 'A'
    exact List.append_nil _
  refine ⟨by decide, h.1, h.2.2 ?_⟩
  rw [hc, List.length_replicate]

/-!
## Claims about completeness read-back (monitor derivation)
-/

theorem lookupA_applyEntry_ne (latest : List (String × Option ScoreEntry))
    (e : ScoreEntry) (t : String) (ht : t ≠ e.topic) :
    lookupA (applyEntry latest e) t = lookupA latest t := by
  unfold applyEntry
  by_cases hc : CANONICAL_TOPICS.contains e.topic = true
  · rw [if_pos hc]
    induction latest with
    | nil => rfl
    | cons p rest ih =>
      rw [List.map_cons]
      by_cases hp : p.1 = e.topic
      · have h1 : ¬ p.1 = t := by rw [hp]; exact fun h => ht h.symm
        rw [if_pos hp, lookupA, lookupA, if_neg h1, if_neg h1]
        exact ih
      · rw [if_neg hp]
        by_cases hq : p.1 = t
        · rw [lookupA, lookupA, if_pos hq, if_pos hq]
        · rw [lookupA, lookupA, if_neg hq, if_neg hq]
          exact ih
  · rw [if_neg hc]

theorem lookupA_applyEntry_self (latest : List (String × Option ScoreEntry))
    (e : ScoreEntry) (hcanon : CANONICAL_TOPICS.contains e.topic = true)
    (hsome : (lookupA latest e.topic).isSome = true) :
    lookupA (applyEntry latest e) e.topic = some (some e) := by
  unfold applyEntry
  rw [if_pos hcanon]
  induction latest with
  | nil => simp [lookupA] at hsome
  | cons p rest ih =>
    rw [List.map_cons]
    by_cases hp : p.1 = e.topic
    · rw [if_pos hp, lookupA, if_pos hp]
    · rw [if_neg hp, lookupA, if_neg hp]
      rw [lookupA, if_neg hp] at hsome
      exact ih hsome

theorem isSome_lookupA_applyEntry (latest : List (String × Option ScoreEntry))
    (e : ScoreEntry) (t : String) :
    (lookupA (applyEntry latest e) t).isSome = (lookupA latest t).isSome := by
  unfold applyEntry
  by_cases hc : CANONICAL_TOPICS.contains e.topic = true
  · rw [if_pos hc]
    induction latest with
    | nil => rfl
    | cons p rest ih =>
      rw [List.map_cons]
      by_cases hp : p.1 = e.topic
      · rw [if_pos hp]
        by_cases hq : p.1 = t
        · rw [lookupA, lookupA, if_pos hq, if_pos hq]
          rfl
        · rw [lookupA, lookupA, if_neg hq, if_neg hq]
          exact ih
      · rw [if_neg hp]
        by_cases hq : p.1 = t
        · rw [lookupA, lookupA, if_pos hq, if_pos hq]
        · rw [lookupA, lookupA, if_neg hq, if_neg hq]
          exact ih
  · rw [if_neg hc]

theorem foldE_no_topic (entries : List ScoreEntry)
    (latest : List (String × Option ScoreEntry)) (t : String)
    (h : ∀ e ∈ entries, e.topic ≠ t) :
    lookupA (entries.foldl applyEntry latest) t = lookupA latest t := by
  induction entries generalizing latest with
  | nil => rfl
  | cons e rest ih =>
    rw [List.foldl_cons]
    rw [ih (applyEntry latest e) (fun e' he' => h e' (List.mem_cons_of_mem e he'))]
    exact lookupA_applyEntry_ne latest e t
      (fun ht => (h e (List.mem_cons_self e rest)) ht.symm)

theorem isSome_foldE (entries : List ScoreEntry)
    (latest : List (String × Option ScoreEntry)) (t : String) :
    (lookupA (entries.foldl applyEntry latest) t).isSome = (lookupA latest t).isSome := by
  induction entries generalizing latest with
  | nil => rfl
  | cons e rest ih =>
    rw [List.foldl_cons, ih (applyEntry latest e), isSome_lookupA_applyEntry]

theorem isSome_foldSnap (payloads : List Payload)
    (latest : List (String × Option ScoreEntry)) (t : String) :
    (lookupA (payloads.foldl applySnapshot latest) t).isSome =
      (lookupA latest t).isSome := by
  induction payloads generalizing latest with
  | nil => rfl
  | cons p rest ih =>
    rw [List.foldl_cons, ih (applySnapshot latest p), applySnapshot, isSome_foldE]

theorem lookupA_initLatest (t : String) (h : t ∈ CANONICAL_TOPICS) :
    lookupA initLatest t = some none := by
  unfold initLatest
  generalize CANONICAL_TOPICS = l at h
  induction l with
  | nil => cases h
  | cons a rest ih =>
    rw [List.map_cons]
    by_cases ha : a = t
    · rw [lookupA, if_pos ha]
    · rw [lookupA, if_neg ha]
      exact ih (by
        rcases List.mem_cons.mp h with h₁ | h₂
        · exact absurd h₁.symm ha
        · exact h₂)

theorem foldE_last_entry (pre post : List ScoreEntry) (e : ScoreEntry)
    (latest : List (String × Option ScoreEntry))
    (hpost : ∀ e' ∈ post, e'.topic ≠ e.topic)
    (hcanon : CANONICAL_TOPICS.contains e.topic = true)
    (hsome : (lookupA latest e.topic).isSome = true) :
    lookupA ((pre ++ e :: post).foldl applyEntry latest) e.topic = some (some e) := by
  rw [List.foldl_append, List.foldl_cons]
  rw [foldE_no_topic post _ _ hpost]
  have hsome' : (lookupA (pre.foldl applyEntry latest) e.topic).isSome = true := by
    rw [isSome_foldE]; exact hsome
  exact lookupA_applyEntry_self _ e hcanon hsome'

/-- Reading back after appending one snapshot whose last entry for a
canonical topic `t` is `e`: the derived latest score for `t` is `e`. -/
theorem compute_latest_append_snap (olds : List Payload) (snap : CompletenessSnapshot)
    (pre post : List ScoreEntry) (e : ScoreEntry)
    (hscores : snap.scores = pre ++ e :: post)
    (hpost : ∀ e' ∈ post, e'.topic ≠ e.topic)
    (hcanon : CANONICAL_TOPICS.contains e.topic = true) :
    lookupA (compute_latest_scores (olds ++ [.snap snap])) e.topic = some (some e) := by
  rw [compute_latest_scores, List.foldl_append, List.foldl_cons, List.foldl_nil]
  show lookupA ((scoresOf (.snap snap)).foldl applyEntry
    (olds.foldl applySnapshot initLatest)) e.topic = some (some e)
  rw [show scoresOf (.snap snap) = snap.scores from rfl, hscores]
  apply foldE_last_entry pre post e _ hpost hcanon
  rw [isSome_foldSnap]
  rw [lookupA_initLatest e.topic (List.elem_iff.mp hcanon)]
  rfl

/-- C7 refuted as universally stated: the batch
`[(income_cash_flow, 0), (income_cash_flow, 1)]` contains the valid
pair `(income_cash_flow, 0)`, yet after appending it to session `s1`
the derived latest score for `income_cash_flow` is `1`, not `0` — a
later entry for the same topic in the same batch wins. -/
theorem append_then_latest_counterexample :
    entryValid { topic := "income_cash_flow", score := .int 0, reason := none } = true ∧
    isOkE (append_completeness_snapshot storeS1 "s1"
      [{ topic := "income_cash_flow", score := .int 0, reason := none },
       { topic := "income_cash_flow", score := .int 1, reason := none }] "T1") = true ∧
    lookupA (compute_latest_scores (read_jsonl
        (stateAfterPair storeS1 (append_completeness_snapshot storeS1 "s1"
          [{ topic := "income_cash_flow", score := .int 0, reason := none },
           { topic := "income_cash_flow", score := .int 1, reason := none }] "T1"))
        "s1" COMPLETENESS_FILENAME)) "income_cash_flow" =
      some (some { topic := "income_cash_flow", score := 1, reason := none }) ∧
    ¬ lookupA (compute_latest_scores (read_jsonl
        (stateAfterPair storeS1 (append_completeness_snapshot storeS1 "s1"
          [{ topic := "income_cash_flow", score := .int 0, reason := none },
           { topic := "income_cash_flow", score := .int 1, reason := none }] "T1"))
        "s1" COMPLETENESS_FILENAME)) "income_cash_flow" =
      some (some { topic := "income_cash_flow", score := 0, reason := none }) := by
  refine ⟨by decide, by decide, by decide, by decide⟩

/-- C7 (amended): for every valid topic `t` and integer score
`s ∈ [0,100]`, appending a valid completeness batch whose **last entry
for `t`** is `(t, s, r)` and then deriving current completeness from
the snapshots read back yields `(t, s, r)` as the latest entry for
`t`. -/
theorem append_then_latest_amended (st : StoreState) (sid ts t : String) (s : Int)
    (r : Option String) (pre post : List RawScoreEntry)
    (hex : session_exists st sid = true)
    (hvalid : (pre ++ { topic := t, score := .int s, reason := r } :: post).all
      entryValid = true)
    (hpost : ∀ e ∈ post, e.topic ≠ t) :
    append_completeness_snapshot st sid
        (pre ++ { topic := t, score := .int s, reason := r } :: post) ts =
      .ok ({ session_id := sid,
             scores := (pre ++ { topic := t, score := .int s, reason := r } :: post).map
               normalizeEntry,
             created_at := ts },
        append_jsonl st sid COMPLETENESS_FILENAME
          (.snap { session_id := sid,
                   scores := (pre ++ { topic := t, score := .int s, reason := r } ::
                     post).map normalizeEntry,
                   created_at := ts })) ∧
    lookupA (compute_latest_scores (read_jsonl
        (stateAfterPair st (append_completeness_snapshot st sid
          (pre ++ { topic := t, score := .int s, reason := r } :: post) ts))
        sid COMPLETENESS_FILENAME)) t =
      some (some { topic := t, score := s, reason := r }) := by
  have hmid : ({ topic := t, score := .int s, reason := r } : RawScoreEntry) ∈
      pre ++ { topic := t, score := .int s, reason := r } :: post :=
    List.mem_append_right pre (List.mem_cons_self _ post)
  have hmidvalid : entryValid { topic := t, score := .int s, reason := r } = true :=
    List.all_eq_true.mp hvalid _ hmid
  have hcanon : CANONICAL_TOPICS.contains t = true :=
    (Bool.and_eq_true_iff.mp (by
      rw [entryValid] at hmidvalid
      exact hmidvalid)).1
  have hok : append_completeness_snapshot st sid
      (pre ++ { topic := t, score := .int s, reason := r } :: post) ts =
      .ok ({ session_id := sid,
             scores := (pre ++ { topic := t, score := .int s, reason := r } :: post).map
               normalizeEntry,
             created_at := ts },
        append_jsonl st sid COMPLETENESS_FILENAME
          (.snap { session_id := sid,
                   scores := (pre ++ { topic := t, score := .int s, reason := r } ::
                     post).map normalizeEntry,
                   created_at := ts })) := by
    simp only [append_completeness_snapshot, validateAll_ok_of_all_valid _ hvalid,
      ledgerAppendJsonl, hex, if_true]
  refine ⟨hok, ?_⟩
  rw [hok]
  show lookupA (compute_latest_scores (read_jsonl (append_jsonl st sid
    COMPLETENESS_FILENAME _) sid COMPLETENESS_FILENAME)) t = _
  rw [read_jsonl_append_self]
  have hmap : (pre ++ { topic := t, score := .int s, reason := r } :: post).map
      normalizeEntry =
      pre.map normalizeEntry ++
        ({ topic := t, score := s, reason := r } : ScoreEntry) ::
          post.map normalizeEntry := by
    rw [List.map_append, List.map_cons]
    rfl
  exact compute_latest_append_snap _ _ (pre.map normalizeEntry)
    (post.map normalizeEntry) { topic := t, score := s, reason := r } hmap
    (by
      intro e' he'
      rcases List.mem_map.mp he' with ⟨e₀, he₀, rfl⟩
      exact hpost e₀ he₀)
    hcanon

/-- Witness for C7 (amended): appending the single valid pair
`(income_cash_flow, 42)` to `s1` makes it the derived latest score. -/
theorem append_then_latest_amended_witness :
    session_exists storeS1 "s1" = true ∧
    lookupA (compute_latest_scores (read_jsonl
        (stateAfterPair storeS1 (append_completeness_snapshot storeS1 "s1"
          [{ topic := "income_cash_flow", score := .int 42, reason := none }] "T1"))
        "s1" COMPLETENESS_FILENAME)) "income_cash_flow" =
      some (some { topic := "income_cash_flow", score := 42, reason := none }) :=
  ⟨by decide,
   (append_then_latest_amended storeS1 "s1" "T1" "income_cash_flow" 42 none [] []
     (by decide) (by decide) (by intro e he; cases he)).2⟩

end RetireServer
